import Mathlib

/-!
Verification of the campaign administration layer
(`src/services/campaignService.ts`).

The service is a thin façade over an external data store (supabase).  We
shallow-embed it as pure functions over an explicit database state `DB`
plus an `Oracle` that resolves the external store's nondeterminism: the
currently authenticated user, failure outcomes of each store call, and
server-assigned column defaults.  Every supabase query resolves to a
`{ data, error }` pair and never rejects; a call site that does
`if (error) throw new Error(error.message)` is embedded as returning
`Except.error (Err.storage msg)`, and a call site that discards the
error field simply ignores the oracle's failure flag beyond nulling the
data, exactly as the TypeScript does.
-/

/- ### Enumerations of the TypeScript string-literal unions -/

inductive CampaignType where
  | one_time | scheduled | recurring | ab_test
deriving DecidableEq, Repr

inductive CampaignStatus where
  | draft | scheduled | sending | sent | cancelled | paused
deriving DecidableEq, Repr

inductive Channel where
  | push | whatsapp | email | sms
deriving DecidableEq, Repr

inductive AudienceType where
  | all | tagged | custom_filter | location_radius | last_order_date | wallet_status
deriving DecidableEq, Repr

inductive ABVariant where
  | A | B
deriving DecidableEq, Repr

/-- Free-form `Record<string, any>` maps (`audience_filter`,
`recurring_config`, ...) are opaque to every operation of the service;
we model them as string key/value association lists. -/
abbrev JsonMap : Type := List (String × String)

/- ### Row types (the exported interfaces of the source file) -/

structure Campaign where
  id : String
  restaurant_id : String
  name : String
  description : Option String
  type : CampaignType
  status : CampaignStatus
  primary_channel : Channel
  fallback_channel : Option Channel
  audience_type : AudienceType
  audience_filter : JsonMap
  estimated_audience_size : Nat
  scheduled_at : Option String
  recurring_config : Option JsonMap
  ab_test_config : Option JsonMap
  created_by : Option String
  created_at : String
  updated_at : String
  sent_at : Option String
deriving DecidableEq, Repr

structure CampaignMessage where
  id : String
  campaign_id : String
  channel : Channel
  subject : Option String
  message_template : String
  «variables» : JsonMap
  ab_variant : Option ABVariant
  created_at : String
deriving DecidableEq, Repr

structure CustomerTag where
  id : String
  restaurant_id : String
  name : String
  color : String
  created_at : String
deriving DecidableEq, Repr

/-- A `customer_tag_assignments` row: the join carries no payload beyond
the two foreign keys. -/
structure TagAssignment where
  customer_id : String
  tag_id : String
deriving DecidableEq, Repr

structure CustomerConsent where
  id : String
  customer_id : String
  restaurant_id : String
  push_notifications : Bool
  whatsapp : Bool
  email : Bool
  sms : Bool
  consent_date : String
  updated_at : String
deriving DecidableEq, Repr

/-- The `customers` table is external to this service (read-only,
`select('*')`); `previewCampaign` uses `id`, `first_name` and
`last_name`, which is all we model. -/
structure Customer where
  id : String
  first_name : String
  last_name : String
deriving DecidableEq, Repr

/-- The `restaurants` table is external to this service (read-only);
`previewCampaign` uses `id` and `name`. -/
structure Restaurant where
  id : String
  name : String
deriving DecidableEq, Repr

/- ### Partial rows (`Partial<Campaign>` etc.): every field optional -/

structure CampaignPatch where
  id : Option String := none
  restaurant_id : Option String := none
  name : Option String := none
  description : Option String := none
  type : Option CampaignType := none
  status : Option CampaignStatus := none
  primary_channel : Option Channel := none
  fallback_channel : Option Channel := none
  audience_type : Option AudienceType := none
  audience_filter : Option JsonMap := none
  estimated_audience_size : Option Nat := none
  scheduled_at : Option String := none
  recurring_config : Option JsonMap := none
  ab_test_config : Option JsonMap := none
  created_by : Option String := none
  created_at : Option String := none
  updated_at : Option String := none
  sent_at : Option String := none
deriving DecidableEq, Repr

structure ConsentPatch where
  id : Option String := none
  customer_id : Option String := none
  restaurant_id : Option String := none
  push_notifications : Option Bool := none
  whatsapp : Option Bool := none
  email : Option Bool := none
  sms : Option Bool := none
  consent_date : Option String := none
  updated_at : Option String := none
deriving DecidableEq, Repr

/-- Applying a `Partial<Campaign>` patch to a row, as the store's
`update` does: a field present in the patch replaces the column, an
absent field leaves it. -/
def applyPatch (c : Campaign) (p : CampaignPatch) : Campaign where
  id := p.id.getD c.id
  restaurant_id := p.restaurant_id.getD c.restaurant_id
  name := p.name.getD c.name
  description := match p.description with | some v => some v | none => c.description
  type := p.type.getD c.type
  status := p.status.getD c.status
  primary_channel := p.primary_channel.getD c.primary_channel
  fallback_channel := match p.fallback_channel with | some v => some v | none => c.fallback_channel
  audience_type := p.audience_type.getD c.audience_type
  audience_filter := p.audience_filter.getD c.audience_filter
  estimated_audience_size := p.estimated_audience_size.getD c.estimated_audience_size
  scheduled_at := match p.scheduled_at with | some v => some v | none => c.scheduled_at
  recurring_config := match p.recurring_config with | some v => some v | none => c.recurring_config
  ab_test_config := match p.ab_test_config with | some v => some v | none => c.ab_test_config
  created_by := match p.created_by with | some v => some v | none => c.created_by
  created_at := p.created_at.getD c.created_at
  updated_at := p.updated_at.getD c.updated_at
  sent_at := match p.sent_at with | some v => some v | none => c.sent_at

/- ### Audit log -/

/-- The `changes` payload of a `campaign_audit_log` insert.  The source
passes one of four concrete shapes: the empty object, the literal
`Partial<Campaign>` patch (update), `\x7b scheduled_at \x7d` (schedule)
or `\x7b customer_id \x7d` (preview). -/
inductive AuditChanges where
  | empty
  | patch (updates : CampaignPatch)
  | scheduledAt (t : String)
  | customerId (c : String)
deriving DecidableEq, Repr

structure AuditEntry where
  campaign_id : String
  action : String
  performed_by : Option String
  changes : AuditChanges
deriving DecidableEq, Repr

/- ### The database state and the oracle -/

structure DB where
  campaigns : List Campaign
  campaign_messages : List CampaignMessage
  customer_tags : List CustomerTag
  customer_tag_assignments : List TagAssignment
  customer_consent : List CustomerConsent
  customers : List Customer
  restaurants : List Restaurant
  audit_log : List AuditEntry
deriving DecidableEq, Repr

/-- The oracle resolves everything the external store decides on a given
call: the authenticated user (`supabase.auth.getUser()`; a failed lookup
destructures to a null user, i.e. `none`), whether each store call fails
and with what message, and the server-side column defaults (including the
generated id and timestamps) used when an insert omits columns. -/
structure Oracle where
  authUser : Option String
  /-- Failure of the operation's primary table write/read. -/
  storeFails : Option String
  /-- Failure of the `campaign_audit_log` insert issued by `logAuditAction`. -/
  auditFails : Option String
  /-- Failure of `previewCampaign`'s `campaigns` fetch. -/
  campaignFetchFails : Option String
  /-- Failure of `previewCampaign`'s `campaign_messages` fetch. -/
  messagesFetchFails : Option String
  /-- Failure of `previewCampaign`'s `customers` fetch. -/
  customerFetchFails : Option String
  /-- Failure of `previewCampaign`'s `restaurants` fetch. -/
  restaurantFetchFails : Option String
  /-- Server-side defaults for a `campaigns` insert: generated id,
  creation timestamps and column defaults for omitted fields. -/
  defaultCampaign : Campaign
  /-- Server-side defaults for a `customer_consent` insert. -/
  defaultConsent : CustomerConsent
deriving Repr

/-- Errors thrown by the service.  The source throws plain `Error`
everywhere; following the spec's taxonomy we distinguish `storage`
(re-throw of the store's own message) from `notFound` (the explicit
checks in `previewCampaign`), keeping the thrown message. -/
inductive Err where
  | storage (msg : String)
  | notFound (msg : String)
deriving DecidableEq, Repr

/-- PostgREST's error message when `.single()` receives a row count
different from one; the request's transaction is rolled back. -/
def singleErrMsg : String := "JSON object requested, multiple (or no) rows returned"

/-- Result of one service operation: the returned value or thrown error,
the database afterwards, and the trace of `campaign_audit_log` inserts
issued during the call (issued, whether or not the audit store accepted
them). -/
structure OpResult (α : Type) where
  res : Except Err α
  db : DB
  issued : List AuditEntry
deriving Repr

/-- `[x]` when the store call returned exactly one row (`.single()`),
otherwise the data is null. -/
def singleRow : List α → Option α
  | [x] => some x
  | _ => none

/- ### JavaScript string replacement

`previewCampaign` renders templates with
`rendered.replace(/\x7b\x7btoken\x7d\x7d/g, replacement)`.  The three
regexes are literal strings (every metacharacter escaped), but the
replacement string is interpreted by ECMAScript `GetSubstitution`:
with zero capture groups, `$$` inserts `$`, `$&` the matched substring,
a dollar followed by a backtick the part of the subject before the
match, `$'` the part after it, and any other `$`-sequence is literal.
We embed that faithfully on `List Char`. -/

/-- Split `s` around the leftmost occurrence of `pat`:
`some (a, b)` with `s = a ++ pat ++ b`, or `none` when `pat` does not
occur in `s`. -/
def splitFirst (pat : List Char) : List Char → Option (List Char × List Char)
  | [] => if pat = [] then some ([], []) else none
  | c :: cs =>
    if pat.isPrefixOf (c :: cs) then some ([], (c :: cs).drop pat.length)
    else
      match splitFirst pat cs with
      | some (a, b) => some (c :: a, b)
      | none => none

/-- ECMAScript `GetSubstitution` for a match with no capture groups:
`matched` is the matched substring, `before`/`after` the parts of the
subject string surrounding the match. -/
def gsub (matched before after : List Char) : List Char → List Char
  | [] => []
  | [c] => [c]
  | c :: d :: rest =>
    if c = '$' then
      if d = '$' then '$' :: gsub matched before after rest
      else if d = '&' then matched ++ gsub matched before after rest
      else if d = Char.ofNat 96 then before ++ gsub matched before after rest
      else if d = Char.ofNat 39 then after ++ gsub matched before after rest
      else c :: gsub matched before after (d :: rest)
    else c :: gsub matched before after (d :: rest)

/-- Fuel-driven loop of `String.prototype.replace` with a global flag:
replaces successive non-overlapping leftmost occurrences, expanding the
replacement with `gsub` against the original subject (`pre` is the part
of the subject already consumed).  The fuel is initialised to the
subject's length, which bounds the number of matches for a nonempty
pattern. -/
def replAuxF (pat repl : List Char) : Nat → List Char → List Char → List Char
  | 0, _, s => s
  | fuel + 1, pre, s =>
    match splitFirst pat s with
    | none => s
    | some (a, b) =>
      a ++ gsub pat (pre ++ a) b repl ++ replAuxF pat repl fuel (pre ++ a ++ pat) b

/-- `s.replace(/pat/g, repl)` for a literal (regex-escaped) pattern
`pat`, with ECMAScript replacement-string interpretation. -/
def jsReplaceAllL (pat repl s : List Char) : List Char :=
  if pat = [] then s else replAuxF pat repl s.length [] s

def jsReplace (s pat repl : String) : String :=
  (jsReplaceAllL pat.toList repl.toList s.toList).asString

/-- The literal-replacement loop the spec's words describe ("substitutes
all three placeholder tokens"): identical traversal, but the replacement
text is inserted verbatim.  Kept separate from `replAuxF` so the
source's `$`-interpretation can be compared against it. -/
def litAuxF (pat repl : List Char) : Nat → List Char → List Char
  | 0, s => s
  | fuel + 1, s =>
    match splitFirst pat s with
    | none => s
    | some (a, b) => a ++ repl ++ litAuxF pat repl fuel b

def litReplaceAllL (pat repl s : List Char) : List Char :=
  if pat = [] then s else litAuxF pat repl s.length s

def litReplace (s pat repl : String) : String :=
  (litReplaceAllL pat.toList repl.toList s.toList).asString

/-- `true` when `pat` occurs in `s` as a contiguous substring. -/
def containsTok (s pat : String) : Bool :=
  (splitFirst pat.toList s.toList).isSome

def tokCustomerName : String := "\x7b\x7bcustomer_name\x7d\x7d"
def tokRestaurantName : String := "\x7b\x7brestaurant_name\x7d\x7d"
def tokPromoCode : String := "\x7b\x7bpromo_code\x7d\x7d"

/-- The three ordered substitutions of `previewCampaign`, exactly as the
source performs them. -/
def renderTemplate (template fullName restName : String) : String :=
  jsReplace (jsReplace (jsReplace template tokCustomerName fullName)
    tokRestaurantName restName) tokPromoCode "PREVIEW-CODE"

/-- The same three ordered substitutions with the replacements inserted
literally, as the spec's words state them. -/
def litRender (template fullName restName : String) : String :=
  litReplace (litReplace (litReplace template tokCustomerName fullName)
    tokRestaurantName restName) tokPromoCode "PREVIEW-CODE"

/-- The template literal composing the customer's full name,
first name, a space, then last name. -/
def fullNameOf (cu : Customer) : String :=
  cu.first_name ++ " " ++ cu.last_name

namespace CampaignService

/-- `logAuditAction`: inserts one audit row and ignores the insert's
`\x7b error \x7d` result entirely (no `if (error) throw`), so a failed
audit insert is invisible to the caller.  Returns the database afterwards
and the entry whose insert was issued. -/
def logAuditAction (o : Oracle) (db : DB) (campaignId action : String)
    (performedBy : Option String) (changes : AuditChanges) : DB × AuditEntry :=
  let e : AuditEntry := ⟨campaignId, action, performedBy, changes⟩
  (if o.auditFails.isSome then db
   else { db with audit_log := db.audit_log ++ [e] }, e)

/-- The row persisted by `createCampaign`'s insert:
`\x7b ...campaign, created_by: userData?.user?.id \x7d` — server defaults
for omitted columns, every present patch field, and `created_by`
overridden by the authenticated identity (null when none resolved). -/
def insertedCampaign (o : Oracle) (p : CampaignPatch) : Campaign :=
  { applyPatch o.defaultCampaign p with created_by := o.authUser }

def createCampaign (o : Oracle) (db : DB) (campaign : CampaignPatch) :
    OpResult Campaign :=
  match o.storeFails with
  | some m => ⟨.error (.storage m), db, []⟩
  | none =>
    let row := insertedCampaign o campaign
    let db1 := { db with campaigns := db.campaigns ++ [row] }
    let (db2, entry) := logAuditAction o db1 row.id "created" o.authUser .empty
    ⟨.ok row, db2, [entry]⟩

/-- Shared shape of `updateCampaign` and the four lifecycle transitions:
`update(f).eq('id', id).select().single()` followed by
`logAuditAction(id, action, user, changes)`.  `.single()` errors (and the
transaction rolls back) unless exactly one row matched. -/
def campaignUpdateOp (o : Oracle) (db : DB) (campaignId : String)
    (f : Campaign → Campaign) (action : String) (changes : AuditChanges) :
    OpResult Campaign :=
  match o.storeFails with
  | some m => ⟨.error (.storage m), db, []⟩
  | none =>
    match (db.campaigns.filter (fun c => c.id = campaignId)).map f with
    | [row] =>
      let db1 := { db with
        campaigns := db.campaigns.map fun c => if c.id = campaignId then f c else c }
      let (db2, entry) := logAuditAction o db1 campaignId action o.authUser changes
      ⟨.ok row, db2, [entry]⟩
    | _ => ⟨.error (.storage singleErrMsg), db, []⟩

def updateCampaign (o : Oracle) (db : DB) (campaignId : String)
    (updates : CampaignPatch) : OpResult Campaign :=
  campaignUpdateOp o db campaignId (fun c => applyPatch c updates) "edited"
    (.patch updates)

def deleteCampaign (o : Oracle) (db : DB) (campaignId : String) : OpResult Unit :=
  match o.storeFails with
  | some m => ⟨.error (.storage m), db, []⟩
  | none =>
    ⟨.ok (), { db with campaigns := db.campaigns.filter fun c => ¬(c.id = campaignId) }, []⟩

def scheduleCampaign (o : Oracle) (db : DB) (campaignId scheduledAt : String) :
    OpResult Campaign :=
  campaignUpdateOp o db campaignId
    (fun c => { c with status := .scheduled, scheduled_at := some scheduledAt })
    "scheduled" (.scheduledAt scheduledAt)

def cancelCampaign (o : Oracle) (db : DB) (campaignId : String) : OpResult Campaign :=
  campaignUpdateOp o db campaignId (fun c => { c with status := .cancelled })
    "cancelled" .empty

def pauseCampaign (o : Oracle) (db : DB) (campaignId : String) : OpResult Campaign :=
  campaignUpdateOp o db campaignId (fun c => { c with status := .paused })
    "paused" .empty

def resumeCampaign (o : Oracle) (db : DB) (campaignId : String) : OpResult Campaign :=
  campaignUpdateOp o db campaignId (fun c => { c with status := .scheduled })
    "resumed" .empty

/-- `getCampaign`: `.eq('id', id).maybeSingle()` — null data on absence
(never throws on absence), store error re-thrown, and an error when more
than one row matches. -/
def getCampaign (o : Oracle) (db : DB) (campaignId : String) :
    Except Err (Option Campaign) :=
  match o.campaignFetchFails with
  | some m => .error (.storage m)
  | none =>
    match db.campaigns.filter (fun c => c.id = campaignId) with
    | [] => .ok none
    | [c] => .ok (some c)
    | _ => .error (.storage singleErrMsg)

/-- `getCampaignMessages`: `.eq('campaign_id', id)`, `data || []`. -/
def getCampaignMessages (o : Oracle) (db : DB) (campaignId : String) :
    Except Err (List CampaignMessage) :=
  match o.messagesFetchFails with
  | some m => .error (.storage m)
  | none => .ok (db.campaign_messages.filter fun m => m.campaign_id = campaignId)

/-- `getCustomerTags`: selects assignment rows with the nested
`customer_tags(*)` relation and maps each row to its nested tag object.
Modelled from the spec: the nested to-one projection of the store
resolves each assignment's `tag_id` against the `customer_tags` table
(the schema and join engine are not part of this source file); a
dangling assignment projects to a null tag, which the `map` passes
through unfiltered, exactly as the TypeScript `any`-typed map does. -/
def getCustomerTags (o : Oracle) (db : DB) (customerId : String) :
    Except Err (List (Option CustomerTag)) :=
  match o.storeFails with
  | some m => .error (.storage m)
  | none =>
    .ok ((db.customer_tag_assignments.filter (fun a => a.customer_id = customerId)).map
      fun a => db.customer_tags.find? fun t => t.id = a.tag_id)

/-- The natural key of `customer_consent`: one row per
(customer, restaurant) pair. -/
def consentKey (cid rid : String) : CustomerConsent → Bool :=
  fun r => r.customer_id = cid ∧ r.restaurant_id = rid

/-- The merge performed when the consent upsert hits an existing row:
every column present in the upsert payload is set, absent columns keep
their stored values.  `ecid`/`erid` are the payload's key columns. -/
def mergeConsent (r : CustomerConsent) (ecid erid : String) (p : ConsentPatch) :
    CustomerConsent where
  id := p.id.getD r.id
  customer_id := ecid
  restaurant_id := erid
  push_notifications := p.push_notifications.getD r.push_notifications
  whatsapp := p.whatsapp.getD r.whatsapp
  email := p.email.getD r.email
  sms := p.sms.getD r.sms
  consent_date := p.consent_date.getD r.consent_date
  updated_at := p.updated_at.getD r.updated_at

/-- The row created when the consent upsert finds no existing row for
the key: server defaults for omitted columns, payload columns set. -/
def newConsentRow (o : Oracle) (ecid erid : String) (p : ConsentPatch) :
    CustomerConsent where
  id := p.id.getD o.defaultConsent.id
  customer_id := ecid
  restaurant_id := erid
  push_notifications := p.push_notifications.getD o.defaultConsent.push_notifications
  whatsapp := p.whatsapp.getD o.defaultConsent.whatsapp
  email := p.email.getD o.defaultConsent.email
  sms := p.sms.getD o.defaultConsent.sms
  consent_date := p.consent_date.getD o.defaultConsent.consent_date
  updated_at := p.updated_at.getD o.defaultConsent.updated_at

/-- `updateCustomerConsent`: upserts
`\x7b customer_id, restaurant_id, ...consent \x7d` (note the patch is
spread after the key fields, so a patch carrying `customer_id` or
`restaurant_id` overrides the arguments), then `.select().single()`.
Modelled from the spec: the upsert's conflict target is the natural key
`(customer_id, restaurant_id)` — "one row per (customer, restaurant)
pair; upserted, never duplicated" — since the table schema holding that
constraint is not part of this source file.  On conflict the payload's
columns are set on the existing row; otherwise a new row is inserted
with server defaults for omitted columns. -/
def updateCustomerConsent (o : Oracle) (db : DB) (customerId restaurantId : String)
    (consent : ConsentPatch) : OpResult CustomerConsent :=
  match o.storeFails with
  | some m => ⟨.error (.storage m), db, []⟩
  | none =>
    let ecid := consent.customer_id.getD customerId
    let erid := consent.restaurant_id.getD restaurantId
    let keyMatch : CustomerConsent → Bool := consentKey ecid erid
    if (db.customer_consent.filter keyMatch).isEmpty then
      let row := newConsentRow o ecid erid consent
      ⟨.ok row, { db with customer_consent := db.customer_consent ++ [row] }, []⟩
    else
      match (db.customer_consent.filter keyMatch).map
          (fun r => mergeConsent r ecid erid consent) with
      | [row] =>
        let newRows := db.customer_consent.map
          fun r => if keyMatch r then mergeConsent r ecid erid consent else r
        ⟨.ok row, { db with customer_consent := newRows }, []⟩
      | _ => ⟨.error (.storage singleErrMsg), db, []⟩

/-- The shape returned by `previewCampaign` for each message:
`\x7b ...msg, rendered_message: rendered \x7d`. -/
structure RenderedMessage where
  msg : CampaignMessage
  rendered_message : String
deriving DecidableEq, Repr

/-- The object returned by `previewCampaign`. -/
structure PreviewResult where
  campaign : Campaign
  messages : List RenderedMessage
  customer : Customer
deriving DecidableEq, Repr

/-- The restaurant name substituted by `previewCampaign`:
`restaurant?.name || ''` where the restaurant fetch's error is
destructured away (failure or absence both yield a null restaurant
and degrade to the empty string). -/
def restNameOf (o : Oracle) (db : DB) (restaurantId : String) : String :=
  ((if o.restaurantFetchFails.isSome then none
    else singleRow (db.restaurants.filter fun r => r.id = restaurantId)).map
    (fun r => r.name)).getD ""

def previewCampaign (o : Oracle) (db : DB) (campaignId customerId : String) :
    OpResult PreviewResult :=
  match getCampaign o db campaignId with
  | .error e => ⟨.error e, db, []⟩
  | .ok campaignOpt =>
    match getCampaignMessages o db campaignId with
    | .error e => ⟨.error e, db, []⟩
    | .ok messages =>
      match campaignOpt with
      | none => ⟨.error (.notFound "Campaign or messages not found"), db, []⟩
      | some campaign =>
        if messages.isEmpty then
          ⟨.error (.notFound "Campaign or messages not found"), db, []⟩
        else
          -- the customer fetch's error is destructured away: on any store
          -- failure (including genuine absence, where `.single()` reports
          -- an error) the data is null and only the null is checked
          match (if o.customerFetchFails.isSome then none
                 else singleRow (db.customers.filter fun c => c.id = customerId)) with
          | none => ⟨.error (.notFound "Customer not found"), db, []⟩
          | some customer =>
            let restName := restNameOf o db campaign.restaurant_id
            let renderedMessages := messages.map fun m =>
              ⟨m, renderTemplate m.message_template (fullNameOf customer) restName⟩
            let audited :=
              logAuditAction o db campaignId "preview" o.authUser (.customerId customerId)
            ⟨.ok ⟨campaign, renderedMessages, customer⟩, audited.1, [audited.2]⟩

end CampaignService

/- ### Concrete fixtures used to instantiate the theorems -/

def defaultCampaignRow : Campaign :=
  ⟨"gen-1", "r1", "Untitled", none, .one_time, .draft, .push, none, .all, [],
   0, none, none, none, none, "2026-01-01T00:00:00Z", "2026-01-01T00:00:00Z", none⟩

def defaultConsentRow : CustomerConsent :=
  ⟨"consent-gen-1", "", "", false, false, false, false,
   "2026-01-01T00:00:00Z", "2026-01-01T00:00:00Z"⟩

/-- An oracle for a healthy store: an authenticated user, no failures. -/
def baseOracle : Oracle :=
  ⟨some "user-1", none, none, none, none, none, none,
   defaultCampaignRow, defaultConsentRow⟩

def sampleCampaign : Campaign :=
  ⟨"c1", "r1", "Launch", none, .one_time, .draft, .push, none, .all, [],
   0, none, none, none, none, "t0", "t0", none⟩

def cancelledCampaign : Campaign :=
  ⟨"c2", "r1", "Old", none, .one_time, .cancelled, .push, none, .all, [],
   0, none, none, none, none, "t0", "t0", none⟩

def sampleMessage : CampaignMessage :=
  ⟨"m1", "c1", .push, none,
   "Hi \x7b\x7bcustomer_name\x7d\x7d, use \x7b\x7bpromo_code\x7d\x7d at \x7b\x7brestaurant_name\x7d\x7d",
   [], none, "t0"⟩

def sampleCustomer : Customer := ⟨"u1", "Ann", "Lee"⟩

/-- A customer whose first name contains the ECMAScript replacement
pattern `$$`. -/
def dollarCustomer : Customer := ⟨"u2", "$$", "Lee"⟩

def sampleRestaurant : Restaurant := ⟨"r1", "Bella"⟩

def sampleTag : CustomerTag := ⟨"tag1", "r1", "vip", "gold", "t0"⟩

def emptyDB : DB := ⟨[], [], [], [], [], [], [], []⟩

def previewDB : DB :=
  { emptyDB with
    campaigns := [sampleCampaign]
    campaign_messages := [sampleMessage]
    customers := [sampleCustomer, dollarCustomer]
    restaurants := [sampleRestaurant] }

def tagsDB : DB :=
  { emptyDB with
    customer_tags := [sampleTag]
    customer_tag_assignments := [⟨"u1", "tag1"⟩] }

/- ### Lemmas about the replacement machinery -/

theorem splitFirst_eq (pat : List Char) :
    ∀ s a b : List Char, splitFirst pat s = some (a, b) → s = a ++ pat ++ b := by
  intro s
  induction s with
  | nil =>
    intro a b h
    by_cases hp : pat = []
    · simp [splitFirst, hp] at h
      obtain ⟨ha, hb⟩ := h
      subst ha; subst hb
      simp [hp]
    · simp [splitFirst, hp] at h
  | cons c cs ih =>
    intro a b h
    by_cases hp : pat.isPrefixOf (c :: cs)
    · simp only [splitFirst, if_pos hp] at h
      obtain ⟨t, ht⟩ := List.isPrefixOf_iff_prefix.mp hp
      simp only [Option.some.injEq, Prod.mk.injEq] at h
      obtain ⟨ha, hb⟩ := h
      subst ha
      rw [← ht, List.drop_left] at hb
      subst hb
      simp [← ht]
    · simp only [splitFirst, if_neg hp] at h
      cases hsp : splitFirst pat cs with
      | none => rw [hsp] at h; exact absurd h (by simp)
      | some ab =>
        obtain ⟨a0, b0⟩ := ab
        rw [hsp] at h
        simp only [Option.some.injEq, Prod.mk.injEq] at h
        obtain ⟨ha, hb⟩ := h
        have := ih a0 b0 hsp
        subst ha hb
        simp [this]

theorem gsub_no_dollar (m b a : List Char) :
    ∀ r : List Char, '$' ∉ r → gsub m b a r = r := by
  intro r
  induction r with
  | nil => intro _; rfl
  | cons c cs ih =>
    intro h
    have hc : ¬(c = '$') := fun e => h (by simp [e])
    have hcs : '$' ∉ cs := fun hm => h (List.mem_cons_of_mem _ hm)
    cases cs with
    | nil => simp [gsub]
    | cons d ds => simp [gsub, hc, ih hcs]

theorem replAuxF_no_occ (pat repl : List Char) (fuel : Nat) (pre s : List Char)
    (h : splitFirst pat s = none) : replAuxF pat repl fuel pre s = s := by
  cases fuel with
  | zero => rfl
  | succ n => simp [replAuxF, h]

theorem jsReplace_no_occ (s pat repl : String)
    (h : splitFirst pat.toList s.toList = none) : jsReplace s pat repl = s := by
  unfold jsReplace jsReplaceAllL
  by_cases hp : pat.toList = []
  · rw [if_pos hp, String.asString_toList]
  · rw [if_neg hp, replAuxF_no_occ _ _ _ _ _ h, String.asString_toList]

theorem replAuxF_eq_litAuxF (pat repl : List Char) (hpat : pat ≠ [])
    (hd : '$' ∉ repl) :
    ∀ (fuel : Nat) (pre s : List Char), s.length ≤ fuel →
      replAuxF pat repl fuel pre s = litAuxF pat repl fuel s := by
  intro fuel
  induction fuel with
  | zero => intro pre s _; rfl
  | succ n ih =>
    intro pre s hs
    cases hsp : splitFirst pat s with
    | none => simp [replAuxF, litAuxF, hsp]
    | some ab =>
      obtain ⟨a, b⟩ := ab
      have hb := splitFirst_eq pat s a b hsp
      have hp1 : 1 ≤ pat.length := by
        cases pat with
        | nil => exact absurd rfl hpat
        | cons x xs => simp
      have hlen : b.length ≤ n := by
        have : s.length = a.length + pat.length + b.length := by
          simp [hb]; omega
        omega
      simp only [replAuxF, litAuxF, hsp, gsub_no_dollar _ _ _ repl hd]
      rw [ih _ b hlen]

theorem jsReplace_eq_litReplace (s pat repl : String) (hd : '$' ∉ repl.toList) :
    jsReplace s pat repl = litReplace s pat repl := by
  unfold jsReplace litReplace jsReplaceAllL litReplaceAllL
  by_cases hp : pat.toList = []
  · rw [if_pos hp, if_pos hp]
  · rw [if_neg hp, if_neg hp,
      replAuxF_eq_litAuxF pat.toList repl.toList hp hd s.toList.length [] s.toList le_rfl]

theorem renderTemplate_eq_litRender (t fn rn : String)
    (h1 : '$' ∉ fn.toList) (h2 : '$' ∉ rn.toList) :
    renderTemplate t fn rn = litRender t fn rn := by
  unfold renderTemplate litRender
  rw [jsReplace_eq_litReplace _ _ _ h1, jsReplace_eq_litReplace _ _ _ h2,
    jsReplace_eq_litReplace _ _ _ (by decide)]

theorem renderTemplate_no_tokens (t fn rn : String)
    (h1 : containsTok t tokCustomerName = false)
    (h2 : containsTok t tokRestaurantName = false)
    (h3 : containsTok t tokPromoCode = false) :
    renderTemplate t fn rn = t := by
  have occ : ∀ (pat : String), containsTok t pat = false →
      splitFirst pat.toList t.toList = none := by
    intro pat h
    cases hh : splitFirst pat.toList t.toList with
    | none => rfl
    | some ab => rw [containsTok, hh] at h; simp at h
  unfold renderTemplate
  rw [jsReplace_no_occ _ _ _ (occ _ h1), jsReplace_no_occ _ _ _ (occ _ h2),
    jsReplace_no_occ _ _ _ (occ _ h3)]

/- ### C5 — resume sets status to scheduled unconditionally -/

/-- C5: for every campaign and every prior status value (including draft
and cancelled), `resumeCampaign` sets the campaign's status to
`scheduled` unconditionally; no precondition on the prior status is
checked and no transition is rejected — whenever the store accepts the
write and exactly one row has the id, the call succeeds and the row's
status becomes `scheduled`, whatever it was before. -/
theorem c5_resume_unconditional (o : Oracle) (db : DB) (id : String) (c : Campaign)
    (hsf : o.storeFails = none)
    (hfil : db.campaigns.filter (fun x => x.id = id) = [c]) :
    (CampaignService.resumeCampaign o db id).res = .ok { c with status := .scheduled }
    ∧ (CampaignService.resumeCampaign o db id).db.campaigns
        = db.campaigns.map (fun x => if x.id = id then { x with status := .scheduled } else x) := by
  unfold CampaignService.resumeCampaign CampaignService.campaignUpdateOp
  rw [hsf, hfil]
  cases haf : o.auditFails <;>
    simp [CampaignService.logAuditAction, haf]

/-- C5 witness: resuming a `draft` campaign and a `cancelled` campaign
both yield status `scheduled`. -/
theorem c5_witness :
    (baseOracle.storeFails = none
      ∧ previewDB.campaigns.filter (fun x => x.id = "c1") = [sampleCampaign]
      ∧ sampleCampaign.status = .draft
      ∧ (CampaignService.resumeCampaign baseOracle previewDB "c1").res
          = .ok { sampleCampaign with status := .scheduled })
    ∧ ({ emptyDB with campaigns := [cancelledCampaign] }.campaigns.filter
          (fun x => x.id = "c2") = [cancelledCampaign]
      ∧ cancelledCampaign.status = .cancelled
      ∧ (CampaignService.resumeCampaign baseOracle
            { emptyDB with campaigns := [cancelledCampaign] } "c2").res
          = .ok { cancelledCampaign with status := .scheduled }) := by
  refine ⟨⟨rfl, by decide, rfl, ?_⟩, ⟨by decide, rfl, ?_⟩⟩
  · exact (c5_resume_unconditional baseOracle previewDB "c1" sampleCampaign rfl (by decide)).1
  · exact (c5_resume_unconditional baseOracle { emptyDB with campaigns := [cancelledCampaign] }
      "c2" cancelledCampaign rfl (by decide)).1

/- ### C8 — created_by stamped from the authenticated identity -/

/-- C8: for every campaign created via `createCampaign`, the returned
row's `created_by` equals the identity of the currently authenticated
user at call time (`none` when no identity was resolvable, since the
insert overrides any caller-supplied `created_by`); the identity lookup
plays no part in whether the create succeeds — success is decided by the
primary insert alone, for every value of `authUser`. -/
theorem c8_created_by_stamped (o : Oracle) (db : DB) (p : CampaignPatch)
    (hsf : o.storeFails = none) :
    (CampaignService.createCampaign o db p).res
        = .ok (CampaignService.insertedCampaign o p)
    ∧ (CampaignService.insertedCampaign o p).created_by = o.authUser := by
  unfold CampaignService.createCampaign
  rw [hsf]
  exact ⟨by trivial, by trivial⟩

/-- C8 witness: with no resolvable identity (`authUser = none`) the
create still succeeds and the returned row's `created_by` is absent;
with an authenticated user it equals that user. -/
theorem c8_witness :
    (({ baseOracle with authUser := none } : Oracle).storeFails = none
      ∧ (CampaignService.createCampaign { baseOracle with authUser := none } emptyDB
            { name := some "N" }).res
          = .ok (CampaignService.insertedCampaign { baseOracle with authUser := none }
            { name := some "N" })
      ∧ (CampaignService.insertedCampaign { baseOracle with authUser := none }
            { name := some "N" }).created_by = none)
    ∧ ((CampaignService.insertedCampaign baseOracle { name := some "N" }).created_by
          = some "user-1") := by
  refine ⟨⟨rfl, ?_, ?_⟩, ?_⟩
  · exact (c8_created_by_stamped { baseOracle with authUser := none } emptyDB
      { name := some "N" } rfl).1
  · exact (c8_created_by_stamped { baseOracle with authUser := none } emptyDB
      { name := some "N" } rfl).2
  · exact (c8_created_by_stamped baseOracle emptyDB { name := some "N" } rfl).2

/- ### C9 — delete is a hard delete and never touches the audit log -/

/-- C9: `deleteCampaign` issues no audit-log insert and leaves the audit
log unchanged on every call, successful or not; on success it hard
deletes the campaign rows with the given id, and on a store failure it
re-throws and changes nothing. -/
theorem c9_delete_no_audit (o : Oracle) (db : DB) (id : String) :
    (CampaignService.deleteCampaign o db id).issued = []
    ∧ (CampaignService.deleteCampaign o db id).db.audit_log = db.audit_log
    ∧ (o.storeFails = none →
        (CampaignService.deleteCampaign o db id).res = .ok ()
        ∧ (CampaignService.deleteCampaign o db id).db.campaigns
            = db.campaigns.filter (fun c => ¬(c.id = id)))
    ∧ (∀ m, o.storeFails = some m →
        (CampaignService.deleteCampaign o db id).res = .error (.storage m)
        ∧ (CampaignService.deleteCampaign o db id).db = db) := by
  unfold CampaignService.deleteCampaign
  cases hsf : o.storeFails with
  | none => exact ⟨rfl, rfl, fun _ => ⟨rfl, rfl⟩, fun m hm => by simp at hm⟩
  | some m0 =>
    refine ⟨rfl, rfl, fun h => by simp at h, fun m hm => ?_⟩
    have : m0 = m := by injection hm
    subst this
    exact ⟨by trivial, by trivial⟩

/-- C9 witness: deleting the sample campaign succeeds, removes the row,
and appends nothing to the audit log. -/
theorem c9_witness :
    (CampaignService.deleteCampaign baseOracle previewDB "c1").issued = []
    ∧ (CampaignService.deleteCampaign baseOracle previewDB "c1").db.audit_log
        = previewDB.audit_log
    ∧ (CampaignService.deleteCampaign baseOracle previewDB "c1").res = .ok ()
    ∧ (CampaignService.deleteCampaign baseOracle previewDB "c1").db.campaigns = [] := by
  obtain ⟨h1, h2, h3, _⟩ := c9_delete_no_audit baseOracle previewDB "c1"
  obtain ⟨h4, h5⟩ := h3 rfl
  exact ⟨h1, h2, h4, by rw [h5]; decide⟩

/- ### C1 — every mutating operation issues exactly one matching audit insert -/

/-- Helper: the shared update-then-audit shape issues exactly one audit
insert, with the given action and changes, exactly when the primary
write succeeded; and when the audit store accepts the insert it is
appended to the log. -/
theorem campaignUpdateOp_audit (o : Oracle) (db : DB) (id : String)
    (f : Campaign → Campaign) (action : String) (ch : AuditChanges) :
    ((CampaignService.campaignUpdateOp o db id f action ch).res.isOk = true →
      (CampaignService.campaignUpdateOp o db id f action ch).issued
        = [⟨id, action, o.authUser, ch⟩])
    ∧ ((CampaignService.campaignUpdateOp o db id f action ch).res.isOk = false →
      (CampaignService.campaignUpdateOp o db id f action ch).issued = [])
    ∧ (o.auditFails = none →
      (CampaignService.campaignUpdateOp o db id f action ch).db.audit_log
        = db.audit_log ++ (CampaignService.campaignUpdateOp o db id f action ch).issued) := by
  unfold CampaignService.campaignUpdateOp CampaignService.logAuditAction
  cases hsf : o.storeFails with
  | some m => refine ⟨by simp [Except.isOk, Except.toBool], fun _ => rfl, fun _ => by simp⟩
  | none =>
    cases hm : (db.campaigns.filter (fun c => c.id = id)).map f with
    | nil => exact ⟨by simp [Except.isOk, Except.toBool], fun _ => rfl, fun _ => by simp⟩
    | cons row rest =>
      cases rest with
      | nil =>
        refine ⟨fun _ => rfl, by simp [Except.isOk, Except.toBool], fun haf => ?_⟩
        simp [haf]
      | cons row2 rest2 =>
        exact ⟨by simp [Except.isOk, Except.toBool], fun _ => rfl, fun _ => by simp⟩

/-- Helper: `createCampaign` issues exactly one `"created"` audit insert
for the inserted row exactly when the primary insert succeeded. -/
theorem createCampaign_audit (o : Oracle) (db : DB) (p : CampaignPatch) :
    ((CampaignService.createCampaign o db p).res.isOk = true →
      (CampaignService.createCampaign o db p).issued
        = [⟨(CampaignService.insertedCampaign o p).id, "created", o.authUser, .empty⟩])
    ∧ ((CampaignService.createCampaign o db p).res.isOk = false →
      (CampaignService.createCampaign o db p).issued = [])
    ∧ (o.auditFails = none →
      (CampaignService.createCampaign o db p).db.audit_log
        = db.audit_log ++ (CampaignService.createCampaign o db p).issued) := by
  unfold CampaignService.createCampaign CampaignService.logAuditAction
  cases hsf : o.storeFails with
  | some m => exact ⟨by simp [Except.isOk, Except.toBool], fun _ => rfl, fun _ => by simp⟩
  | none =>
    refine ⟨fun _ => rfl, by simp [Except.isOk, Except.toBool], fun haf => ?_⟩
    simp [haf]

/-- C1: for each of the six mutating operations, a successful primary
write is followed by exactly one audit-log insert whose action label
matches the operation — `created`, `edited`, `scheduled`, `cancelled`,
`paused`, `resumed` — performed by the authenticated user; when the
primary write fails no audit insert is issued; and for `updateCampaign`
the entry's change payload is the literal caller-supplied patch object,
not a diff against old values. -/
theorem c1_audit_insert_matches_operation (o : Oracle) (db : DB) (id t : String)
    (p : CampaignPatch) :
    ((CampaignService.createCampaign o db p).res.isOk = true →
      (CampaignService.createCampaign o db p).issued
        = [⟨(CampaignService.insertedCampaign o p).id, "created", o.authUser, .empty⟩])
    ∧ ((CampaignService.createCampaign o db p).res.isOk = false →
      (CampaignService.createCampaign o db p).issued = [])
    ∧ ((CampaignService.updateCampaign o db id p).res.isOk = true →
      (CampaignService.updateCampaign o db id p).issued
        = [⟨id, "edited", o.authUser, .patch p⟩])
    ∧ ((CampaignService.updateCampaign o db id p).res.isOk = false →
      (CampaignService.updateCampaign o db id p).issued = [])
    ∧ ((CampaignService.scheduleCampaign o db id t).res.isOk = true →
      (CampaignService.scheduleCampaign o db id t).issued
        = [⟨id, "scheduled", o.authUser, .scheduledAt t⟩])
    ∧ ((CampaignService.scheduleCampaign o db id t).res.isOk = false →
      (CampaignService.scheduleCampaign o db id t).issued = [])
    ∧ ((CampaignService.cancelCampaign o db id).res.isOk = true →
      (CampaignService.cancelCampaign o db id).issued
        = [⟨id, "cancelled", o.authUser, .empty⟩])
    ∧ ((CampaignService.cancelCampaign o db id).res.isOk = false →
      (CampaignService.cancelCampaign o db id).issued = [])
    ∧ ((CampaignService.pauseCampaign o db id).res.isOk = true →
      (CampaignService.pauseCampaign o db id).issued
        = [⟨id, "paused", o.authUser, .empty⟩])
    ∧ ((CampaignService.pauseCampaign o db id).res.isOk = false →
      (CampaignService.pauseCampaign o db id).issued = [])
    ∧ ((CampaignService.resumeCampaign o db id).res.isOk = true →
      (CampaignService.resumeCampaign o db id).issued
        = [⟨id, "resumed", o.authUser, .empty⟩])
    ∧ ((CampaignService.resumeCampaign o db id).res.isOk = false →
      (CampaignService.resumeCampaign o db id).issued = [])
    ∧ (o.auditFails = none →
      (CampaignService.updateCampaign o db id p).db.audit_log
        = db.audit_log ++ (CampaignService.updateCampaign o db id p).issued) := by
  obtain ⟨hc1, hc2, _⟩ := createCampaign_audit o db p
  obtain ⟨hu1, hu2, hu3⟩ := campaignUpdateOp_audit o db id
    (fun c => applyPatch c p) "edited" (.patch p)
  obtain ⟨hs1, hs2, _⟩ := campaignUpdateOp_audit o db id
    (fun c => { c with status := .scheduled, scheduled_at := some t }) "scheduled"
    (.scheduledAt t)
  obtain ⟨hx1, hx2, _⟩ := campaignUpdateOp_audit o db id
    (fun c => { c with status := .cancelled }) "cancelled" .empty
  obtain ⟨hp1, hp2, _⟩ := campaignUpdateOp_audit o db id
    (fun c => { c with status := .paused }) "paused" .empty
  obtain ⟨hr1, hr2, _⟩ := campaignUpdateOp_audit o db id
    (fun c => { c with status := .scheduled }) "resumed" .empty
  exact ⟨hc1, hc2, hu1, hu2, hs1, hs2, hx1, hx2, hp1, hp2, hr1, hr2, hu3⟩

/-- C1 witness: a successful update of the sample campaign issues the
single `edited` entry carrying the literal patch, and the entry lands in
the audit log. -/
theorem c1_witness :
    ((CampaignService.updateCampaign baseOracle previewDB "c1"
        { name := some "New" }).res.isOk = true)
    ∧ (CampaignService.updateCampaign baseOracle previewDB "c1"
        { name := some "New" }).issued
      = [⟨"c1", "edited", some "user-1", .patch { name := some "New" }⟩]
    ∧ (CampaignService.updateCampaign baseOracle previewDB "c1"
        { name := some "New" }).db.audit_log
      = previewDB.audit_log
        ++ (CampaignService.updateCampaign baseOracle previewDB "c1"
              { name := some "New" }).issued := by
  have hok : (CampaignService.updateCampaign baseOracle previewDB "c1"
      { name := some "New" }).res.isOk = true := by decide
  obtain ⟨_, _, h3, _, _, _, _, _, _, _, _, _, h13⟩ :=
    c1_audit_insert_matches_operation baseOracle previewDB "c1" "t1"
      { name := some "New" }
  exact ⟨hok, h3 hok, h13 rfl⟩

/- ### C2 — audit-insert failures are swallowed, not thrown -/

/-- C2 counterexample: the primary insert succeeds, the audit-log insert
fails, yet `createCampaign` returns a success instead of throwing —
`logAuditAction` discards the insert's error result, so no audit failure
is ever surfaced to the caller. -/
theorem c2_counterexample_audit_failure_not_thrown :
    (CampaignService.createCampaign { baseOracle with auditFails := some "audit down" }
        emptyDB { name := some "N" }).res.isOk = true
    ∧ ({ baseOracle with auditFails := some "audit down" } : Oracle).auditFails.isSome
        = true := by
  decide

/-- C2 (amended): when the primary mutation has succeeded but the
audit-log insert fails, the failure is NOT surfaced to any caller:
for create, update, schedule, cancel, pause, resume and preview the
returned value is identical to the one returned when the audit write
succeeds, no audit entry is recorded, and the primary mutation is not
rolled back. -/
theorem c2_audit_failure_swallowed (o : Oracle) (db : DB) (m : String)
    (id t uid : String) (p : CampaignPatch) :
    ((CampaignService.createCampaign { o with auditFails := some m } db p).res
        = (CampaignService.createCampaign { o with auditFails := none } db p).res
      ∧ (CampaignService.createCampaign { o with auditFails := some m } db p).db.audit_log
        = db.audit_log
      ∧ (CampaignService.createCampaign { o with auditFails := some m } db p).db.campaigns
        = (CampaignService.createCampaign { o with auditFails := none } db p).db.campaigns)
    ∧ ((CampaignService.updateCampaign { o with auditFails := some m } db id p).res
        = (CampaignService.updateCampaign { o with auditFails := none } db id p).res
      ∧ (CampaignService.updateCampaign { o with auditFails := some m } db id p).db.audit_log
        = db.audit_log
      ∧ (CampaignService.updateCampaign { o with auditFails := some m } db id p).db.campaigns
        = (CampaignService.updateCampaign { o with auditFails := none } db id p).db.campaigns)
    ∧ ((CampaignService.scheduleCampaign { o with auditFails := some m } db id t).res
        = (CampaignService.scheduleCampaign { o with auditFails := none } db id t).res
      ∧ (CampaignService.scheduleCampaign { o with auditFails := some m } db id t).db.audit_log
        = db.audit_log
      ∧ (CampaignService.scheduleCampaign { o with auditFails := some m } db id t).db.campaigns
        = (CampaignService.scheduleCampaign { o with auditFails := none } db id t).db.campaigns)
    ∧ ((CampaignService.cancelCampaign { o with auditFails := some m } db id).res
        = (CampaignService.cancelCampaign { o with auditFails := none } db id).res
      ∧ (CampaignService.cancelCampaign { o with auditFails := some m } db id).db.audit_log
        = db.audit_log
      ∧ (CampaignService.cancelCampaign { o with auditFails := some m } db id).db.campaigns
        = (CampaignService.cancelCampaign { o with auditFails := none } db id).db.campaigns)
    ∧ ((CampaignService.pauseCampaign { o with auditFails := some m } db id).res
        = (CampaignService.pauseCampaign { o with auditFails := none } db id).res
      ∧ (CampaignService.pauseCampaign { o with auditFails := some m } db id).db.audit_log
        = db.audit_log
      ∧ (CampaignService.pauseCampaign { o with auditFails := some m } db id).db.campaigns
        = (CampaignService.pauseCampaign { o with auditFails := none } db id).db.campaigns)
    ∧ ((CampaignService.resumeCampaign { o with auditFails := some m } db id).res
        = (CampaignService.resumeCampaign { o with auditFails := none } db id).res
      ∧ (CampaignService.resumeCampaign { o with auditFails := some m } db id).db.audit_log
        = db.audit_log
      ∧ (CampaignService.resumeCampaign { o with auditFails := some m } db id).db.campaigns
        = (CampaignService.resumeCampaign { o with auditFails := none } db id).db.campaigns)
    ∧ ((CampaignService.previewCampaign { o with auditFails := some m } db id uid).res
        = (CampaignService.previewCampaign { o with auditFails := none } db id uid).res
      ∧ (CampaignService.previewCampaign { o with auditFails := some m } db id uid).db
        = db) := by
  obtain ⟨au, sf, af, cf, mf, uf, rf, dc, dcon⟩ := o
  have hcu : ∀ (f : Campaign → Campaign) (action : String) (ch : AuditChanges),
      (CampaignService.campaignUpdateOp ⟨au, sf, some m, cf, mf, uf, rf, dc, dcon⟩ db id f action ch).res
        = (CampaignService.campaignUpdateOp ⟨au, sf, none, cf, mf, uf, rf, dc, dcon⟩ db id f action ch).res
      ∧ (CampaignService.campaignUpdateOp ⟨au, sf, some m, cf, mf, uf, rf, dc, dcon⟩ db id f action ch).db.audit_log
        = db.audit_log
      ∧ (CampaignService.campaignUpdateOp ⟨au, sf, some m, cf, mf, uf, rf, dc, dcon⟩ db id f action ch).db.campaigns
        = (CampaignService.campaignUpdateOp ⟨au, sf, none, cf, mf, uf, rf, dc, dcon⟩ db id f action ch).db.campaigns := by
    intro f action ch
    unfold CampaignService.campaignUpdateOp CampaignService.logAuditAction
    cases hsf : sf with
    | some m0 => exact ⟨rfl, rfl, rfl⟩
    | none =>
      cases hm : (db.campaigns.filter (fun c => c.id = id)).map f with
      | nil => exact ⟨rfl, rfl, rfl⟩
      | cons row rest =>
        cases rest with
        | nil => exact ⟨rfl, rfl, rfl⟩
        | cons row2 rest2 => exact ⟨rfl, rfl, rfl⟩
  refine ⟨?_, hcu _ _ _, hcu _ _ _, hcu _ _ _, hcu _ _ _, hcu _ _ _, ?_⟩
  · unfold CampaignService.createCampaign CampaignService.logAuditAction
    cases hsf : sf with
    | some m0 => exact ⟨rfl, rfl, rfl⟩
    | none => exact ⟨rfl, rfl, rfl⟩
  · unfold CampaignService.previewCampaign CampaignService.logAuditAction
    cases hcf : cf with
    | some m0 => exact ⟨by trivial, by trivial⟩
    | none =>
      cases hmf : mf with
      | some m0 =>
        simp only [CampaignService.getCampaign, CampaignService.getCampaignMessages, hcf, hmf]
        cases hfil : db.campaigns.filter (fun c => c.id = id) with
        | nil => exact ⟨by trivial, by trivial⟩
        | cons a l =>
          cases l with
          | nil => exact ⟨by trivial, by trivial⟩
          | cons b l2 => exact ⟨by trivial, by trivial⟩
      | none =>
        simp only [CampaignService.getCampaign, CampaignService.getCampaignMessages, hcf, hmf]
        cases hfil : db.campaigns.filter (fun c => c.id = id) with
        | nil => exact ⟨by trivial, by trivial⟩
        | cons a l =>
          cases l with
          | cons b l2 => exact ⟨by trivial, by trivial⟩
          | nil =>
            by_cases hemp : (db.campaign_messages.filter (fun m0 => m0.campaign_id = id)).isEmpty
            · simp only [hemp]
              exact ⟨by trivial, by trivial⟩
            · simp only [hemp]
              cases hcust : (if (uf : Option String).isSome = true then none
                  else singleRow (db.customers.filter fun c => c.id = uid)) with
              | none => simp [hcust]
              | some customer =>
                simp [hcust]
                intro x hx hcid
                rfl

/- ### C4 — previewCampaign's NotFound failures -/

/-- C4: `previewCampaign` fails with the not-found error when the
campaign does not exist, when the campaign has zero messages, or when
the customer id does not resolve; in each case the result is an error,
never a partial result.  (The campaign/messages fetches are assumed not
to fail at the transport level; such a failure is a `StorageError`
thrown earlier.) -/
theorem c4_preview_not_found (o : Oracle) (db : DB) (cid uid : String)
    (hcf : o.campaignFetchFails = none) (hmf : o.messagesFetchFails = none) :
    (db.campaigns.filter (fun c => c.id = cid) = [] →
      (CampaignService.previewCampaign o db cid uid).res
        = .error (.notFound "Campaign or messages not found"))
    ∧ (∀ c, db.campaigns.filter (fun x => x.id = cid) = [c] →
        db.campaign_messages.filter (fun x => x.campaign_id = cid) = [] →
        (CampaignService.previewCampaign o db cid uid).res
          = .error (.notFound "Campaign or messages not found"))
    ∧ (∀ c, db.campaigns.filter (fun x => x.id = cid) = [c] →
        ¬(db.campaign_messages.filter (fun x => x.campaign_id = cid) = []) →
        o.customerFetchFails = none →
        db.customers.filter (fun x => x.id = uid) = [] →
        (CampaignService.previewCampaign o db cid uid).res
          = .error (.notFound "Customer not found")) := by
  refine ⟨?_, ?_, ?_⟩
  · intro hfil
    unfold CampaignService.previewCampaign CampaignService.getCampaign
      CampaignService.getCampaignMessages
    rw [hcf, hmf, hfil]
  · intro c hfil hme
    unfold CampaignService.previewCampaign CampaignService.getCampaign
      CampaignService.getCampaignMessages
    rw [hcf, hmf, hfil, hme]
    rfl
  · intro c hfil hme hucf hcust
    have hne : (db.campaign_messages.filter (fun x => x.campaign_id = cid)).isEmpty
        = false := by
      cases hh : db.campaign_messages.filter (fun x => x.campaign_id = cid) with
      | nil => exact absurd hh hme
      | cons a l => rfl
    unfold CampaignService.previewCampaign CampaignService.getCampaign
      CampaignService.getCampaignMessages
    rw [hcf, hmf, hfil]
    simp only [hne, hucf, hcust]
    rfl

/-- C4 witness: all three failure modes at concrete stores — missing
campaign, campaign with zero messages, unresolvable customer. -/
theorem c4_witness :
    ((CampaignService.previewCampaign baseOracle emptyDB "c1" "u1").res
        = .error (.notFound "Campaign or messages not found"))
    ∧ ((CampaignService.previewCampaign baseOracle
          { emptyDB with campaigns := [sampleCampaign] } "c1" "u1").res
        = .error (.notFound "Campaign or messages not found"))
    ∧ ((CampaignService.previewCampaign baseOracle
          { previewDB with customers := [] } "c1" "u1").res
        = .error (.notFound "Customer not found")) := by
  refine ⟨?_, ?_, ?_⟩
  · exact (c4_preview_not_found baseOracle emptyDB "c1" "u1" rfl rfl).1 (by decide)
  · exact (c4_preview_not_found baseOracle { emptyDB with campaigns := [sampleCampaign] }
      "c1" "u1" rfl rfl).2.1 sampleCampaign (by decide) (by decide)
  · exact (c4_preview_not_found baseOracle { previewDB with customers := [] }
      "c1" "u1" rfl rfl).2.2 sampleCampaign (by decide) (by decide) rfl (by decide)

/- ### C10 — a failed customer fetch is reported as customer-not-found -/

/-- C10: in `previewCampaign`, a transport/storage failure of the
customer fetch is reported as the customer-not-found error, never as a
`StorageError` carrying the store's own message: the fetch's error value
is discarded and only the null data is checked. -/
theorem c10_customer_fetch_error_as_not_found (o : Oracle) (db : DB)
    (cid uid m : String) (c : Campaign)
    (hcf : o.campaignFetchFails = none) (hmf : o.messagesFetchFails = none)
    (hfil : db.campaigns.filter (fun x => x.id = cid) = [c])
    (hme : ¬(db.campaign_messages.filter (fun x => x.campaign_id = cid) = []))
    (hucf : o.customerFetchFails = some m) :
    (CampaignService.previewCampaign o db cid uid).res
        = .error (.notFound "Customer not found")
    ∧ ∀ msg, (CampaignService.previewCampaign o db cid uid).res
        ≠ .error (.storage msg) := by
  have hne : (db.campaign_messages.filter (fun x => x.campaign_id = cid)).isEmpty
      = false := by
    cases hh : db.campaign_messages.filter (fun x => x.campaign_id = cid) with
    | nil => exact absurd hh hme
    | cons a l => rfl
  have hres : (CampaignService.previewCampaign o db cid uid).res
      = .error (.notFound "Customer not found") := by
    unfold CampaignService.previewCampaign CampaignService.getCampaign
      CampaignService.getCampaignMessages
    rw [hcf, hmf, hfil]
    simp only [hne, hucf]
    rfl
  exact ⟨hres, fun msg h => by rw [hres] at h; simp at h⟩

/-- C10 witness: with the customer fetch failing with the store message
"connection reset", preview reports `Customer not found` and no storage
error. -/
theorem c10_witness :
    (CampaignService.previewCampaign
        { baseOracle with customerFetchFails := some "connection reset" }
        previewDB "c1" "u1").res
      = .error (.notFound "Customer not found")
    ∧ (CampaignService.previewCampaign
        { baseOracle with customerFetchFails := some "connection reset" }
        previewDB "c1" "u1").res
      ≠ .error (.storage "connection reset") := by
  obtain ⟨h1, h2⟩ := c10_customer_fetch_error_as_not_found
    { baseOracle with customerFetchFails := some "connection reset" }
    previewDB "c1" "u1" "connection reset" sampleCampaign rfl rfl
    (by decide) (by decide) rfl
  exact ⟨h1, h2 "connection reset"⟩

/- ### C3 — preview rendering -/

/-- Frame lemma: `previewCampaign` never writes to the
`campaign_messages` table, so no stored `message_template` is mutated by
a preview, on any path. -/
theorem previewCampaign_messages_unchanged (o : Oracle) (db : DB)
    (cid uid : String) :
    (CampaignService.previewCampaign o db cid uid).db.campaign_messages
      = db.campaign_messages := by
  unfold CampaignService.previewCampaign CampaignService.logAuditAction
  repeat' split
  all_goals rfl

/-- C3 (amended): on success, `previewCampaign` returns one rendered
copy per stored message of the campaign, produced by the three ordered
global substitutions (customer full name, restaurant name or empty
string, literal `PREVIEW-CODE`); whenever the substituted names contain
no `$` character the replacements are inserted literally, as the spec
reads; a template containing none of the three tokens — unrecognized
tokens included — is returned untouched; and the persisted
`campaign_messages` table, hence every stored `message_template`, is
unchanged by the call.  The `$` caveat is forced by ECMAScript
replacement-pattern interpretation: a name containing `$$`, `$&` and
similar sequences is not inserted literally. -/
theorem c3_preview_rendering (o : Oracle) (db : DB) (cid uid : String)
    (r : CampaignService.PreviewResult)
    (hok : (CampaignService.previewCampaign o db cid uid).res = .ok r) :
    (r.messages = (db.campaign_messages.filter (fun x => x.campaign_id = cid)).map
        (fun msg => ⟨msg, renderTemplate msg.message_template (fullNameOf r.customer)
          (CampaignService.restNameOf o db r.campaign.restaurant_id)⟩))
    ∧ (∀ rm ∈ r.messages,
        '$' ∉ (fullNameOf r.customer).toList →
        '$' ∉ (CampaignService.restNameOf o db r.campaign.restaurant_id).toList →
        rm.rendered_message = litRender rm.msg.message_template (fullNameOf r.customer)
          (CampaignService.restNameOf o db r.campaign.restaurant_id))
    ∧ (∀ rm ∈ r.messages,
        containsTok rm.msg.message_template tokCustomerName = false →
        containsTok rm.msg.message_template tokRestaurantName = false →
        containsTok rm.msg.message_template tokPromoCode = false →
        rm.rendered_message = rm.msg.message_template)
    ∧ (CampaignService.previewCampaign o db cid uid).db.campaign_messages
        = db.campaign_messages := by
  have hmain : r.messages = (db.campaign_messages.filter
        (fun x => x.campaign_id = cid)).map
      (fun msg => ⟨msg, renderTemplate msg.message_template (fullNameOf r.customer)
        (CampaignService.restNameOf o db r.campaign.restaurant_id)⟩) := by
    unfold CampaignService.previewCampaign CampaignService.getCampaign
      CampaignService.getCampaignMessages at hok
    repeat' split at hok
    all_goals simp at hok
    subst hok
    rename_i x2 x1 messages hmsgs copt camp hcamp hne xc customer hcust
    cases hmf2 : o.messagesFetchFails with
    | some m => rw [hmf2] at hmsgs; exact absurd hmsgs (by simp)
    | none =>
      rw [hmf2] at hmsgs
      injection hmsgs with hmsgs2
      subst hmsgs2
      rfl
  refine ⟨hmain, ?_, ?_, previewCampaign_messages_unchanged o db cid uid⟩
  · intro rm hrm h1 h2
    rw [hmain] at hrm
    obtain ⟨msg, hmsg, hrm2⟩ := List.mem_map.mp hrm
    rw [← hrm2]
    exact renderTemplate_eq_litRender msg.message_template _ _ h1 h2
  · intro rm hrm h1 h2 h3
    rw [hmain] at hrm
    obtain ⟨msg, hmsg, hrm2⟩ := List.mem_map.mp hrm
    rw [← hrm2] at h1 h2 h3 ⊢
    exact renderTemplate_no_tokens msg.message_template _ _ h1 h2 h3

/-- C3 counterexample: the claim "replaces every occurrence ... with the
customer's full name" fails as stated.  For the customer whose full name
is `$$ Lee`, the rendered message contains `$ Lee`: ECMAScript
replacement-string interpretation collapses `$$` to `$`, so the full
name is not inserted literally. -/
theorem c3_counterexample_dollar_name :
    (CampaignService.previewCampaign baseOracle previewDB "c1" "u2").res.map
        (fun r => r.messages.map (fun m => m.rendered_message))
      = .ok ["Hi $ Lee, use PREVIEW-CODE at Bella"]
    ∧ fullNameOf dollarCustomer = "$$ Lee"
    ∧ litRender sampleMessage.message_template (fullNameOf dollarCustomer) "Bella"
      = "Hi $$ Lee, use PREVIEW-CODE at Bella"
    ∧ ("Hi $ Lee, use PREVIEW-CODE at Bella" : String)
      ≠ "Hi $$ Lee, use PREVIEW-CODE at Bella" := by
  refine ⟨by rfl, by rfl, by rfl, by decide⟩

/-- C3 witness: on the sample store the preview succeeds and the single
message renders with the full name, the restaurant name and
`PREVIEW-CODE` substituted, matching the rendering equation. -/
theorem c3_witness :
    (CampaignService.previewCampaign baseOracle previewDB "c1" "u1").res
      = .ok ⟨sampleCampaign,
          [⟨sampleMessage, "Hi Ann Lee, use PREVIEW-CODE at Bella"⟩], sampleCustomer⟩
    ∧ (⟨sampleCampaign,
          [⟨sampleMessage, "Hi Ann Lee, use PREVIEW-CODE at Bella"⟩],
          sampleCustomer⟩ : CampaignService.PreviewResult).messages
      = (previewDB.campaign_messages.filter (fun x => x.campaign_id = "c1")).map
          (fun msg => ⟨msg, renderTemplate msg.message_template
            (fullNameOf sampleCustomer)
            (CampaignService.restNameOf baseOracle previewDB
              sampleCampaign.restaurant_id)⟩)
    ∧ (CampaignService.previewCampaign baseOracle previewDB "c1" "u1").db.campaign_messages
      = previewDB.campaign_messages := by
  have hok : (CampaignService.previewCampaign baseOracle previewDB "c1" "u1").res
      = .ok ⟨sampleCampaign,
          [⟨sampleMessage, "Hi Ann Lee, use PREVIEW-CODE at Bella"⟩], sampleCustomer⟩ := by
    rfl
  obtain ⟨h1, _, _, h4⟩ := c3_preview_rendering baseOracle previewDB "c1" "u1" _ hok
  exact ⟨hok, h1, h4⟩

/- ### C6 — getCustomerTags unwraps the nested tag objects -/

/-- C6: `getCustomerTags` returns exactly the tag objects unwrapped from
the assignment rows' nested `customer_tags` field, in order; under
referential integrity of the assignment table's `tag_id` foreign key
(assignments of deleted tags do not linger), the returned list contains
no null/placeholder entries. -/
theorem c6_customer_tags_unwrapped (o : Oracle) (db : DB) (uid : String)
    (l : List (Option CustomerTag))
    (hsf : o.storeFails = none)
    (hfk : ∀ a ∈ db.customer_tag_assignments,
      (db.customer_tags.find? (fun t => t.id = a.tag_id)).isSome = true)
    (hok : CampaignService.getCustomerTags o db uid = .ok l) :
    (∀ x ∈ l, x.isSome = true)
    ∧ l.length
        = (db.customer_tag_assignments.filter (fun a => a.customer_id = uid)).length
    ∧ (∀ x ∈ l, ∃ a ∈ db.customer_tag_assignments, a.customer_id = uid
        ∧ x = db.customer_tags.find? (fun t => t.id = a.tag_id)) := by
  unfold CampaignService.getCustomerTags at hok
  rw [hsf] at hok
  injection hok with hok
  subst hok
  refine ⟨?_, by simp, ?_⟩
  · intro x hx
    obtain ⟨a, ha, hxa⟩ := List.mem_map.mp hx
    rw [← hxa]
    exact hfk a (List.mem_filter.mp ha).1
  · intro x hx
    obtain ⟨a, ha, hxa⟩ := List.mem_map.mp hx
    obtain ⟨ham, hpred⟩ := List.mem_filter.mp ha
    exact ⟨a, ham, by simpa using hpred, hxa.symm⟩

/-- C6 witness: on a store with one assignment and its tag present, the
customer's tag list is the unwrapped tag object, with no null entry. -/
theorem c6_witness :
    CampaignService.getCustomerTags baseOracle tagsDB "u1" = .ok [some sampleTag]
    ∧ (∀ x ∈ [some sampleTag], x.isSome = true) := by
  have hok : CampaignService.getCustomerTags baseOracle tagsDB "u1"
      = .ok [some sampleTag] := by rfl
  obtain ⟨h1, _, _⟩ := c6_customer_tags_unwrapped baseOracle tagsDB "u1"
    [some sampleTag] rfl (by decide) hok
  exact ⟨hok, h1⟩

/- ### C7 — consent upsert keyed on the (customer, restaurant) pair -/

/-- Helper: mapping a guarded rewrite over a list and filtering by the
guard's predicate yields the rewritten image of the original filtrate,
provided the rewrite preserves the predicate. -/
theorem filter_map_guard {α : Type} (p : α → Bool) (g : α → α)
    (hg : ∀ x, p x = true → p (g x) = true) :
    ∀ l : List α, (l.map (fun x => if p x then g x else x)).filter p
      = (l.filter p).map g := by
  intro l
  induction l with
  | nil => rfl
  | cons a l ih =>
    cases hpa : p a with
    | false => simp [hpa, ih]
    | true => simp [hpa, hg a hpa, ih]

/-- Helper: a consent upsert that finds no row for the effective key
inserts a fresh row built from server defaults and the patch. -/
theorem updateCustomerConsent_empty (o : Oracle) (db : DB) (cid rid : String)
    (p : ConsentPatch) (hsf : o.storeFails = none)
    (hpc : p.customer_id = none) (hpr : p.restaurant_id = none)
    (hfil : db.customer_consent.filter (CampaignService.consentKey cid rid) = []) :
    CampaignService.updateCustomerConsent o db cid rid p
      = ⟨.ok (CampaignService.newConsentRow o cid rid p),
         { db with customer_consent :=
             db.customer_consent ++ [CampaignService.newConsentRow o cid rid p] },
         []⟩ := by
  unfold CampaignService.updateCustomerConsent
  rw [hsf]
  simp only [hpc, hpr, Option.getD_none]
  rw [hfil]
  rfl

/-- Helper: a consent upsert that finds exactly one row for the
effective key sets the payload's columns on it and returns the merged
row. -/
theorem updateCustomerConsent_existing (o : Oracle) (db : DB) (cid rid : String)
    (p : ConsentPatch) (hsf : o.storeFails = none)
    (hpc : p.customer_id = none) (hpr : p.restaurant_id = none)
    (r0 : CustomerConsent)
    (hfil : db.customer_consent.filter (CampaignService.consentKey cid rid) = [r0]) :
    CampaignService.updateCustomerConsent o db cid rid p
      = ⟨.ok (CampaignService.mergeConsent r0 cid rid p),
         { db with customer_consent := db.customer_consent.map (fun r =>
             if CampaignService.consentKey cid rid r
             then CampaignService.mergeConsent r cid rid p else r) },
         []⟩ := by
  unfold CampaignService.updateCustomerConsent
  rw [hsf]
  simp only [hpc, hpr, Option.getD_none]
  rw [hfil]
  rfl

/-- C7: `updateCustomerConsent` upserts keyed on the
(customer_id, restaurant_id) pair (the patch is assumed not to carry its
own key fields, which the payload spread would otherwise let override
the arguments): after two sequential calls for the same pair, exactly
one consent row exists for that pair, its fields the second call's
patch merged over the first's — over the server defaults when no row
existed, and over the pre-existing row otherwise. -/
theorem c7_consent_upsert_merge (o1 o2 : Oracle) (db : DB) (cid rid : String)
    (p1 p2 : ConsentPatch)
    (h1 : o1.storeFails = none) (h2 : o2.storeFails = none)
    (hp1c : p1.customer_id = none) (hp1r : p1.restaurant_id = none)
    (hp2c : p2.customer_id = none) (hp2r : p2.restaurant_id = none) :
    (db.customer_consent.filter (CampaignService.consentKey cid rid) = [] →
      ((CampaignService.updateCustomerConsent o2
          (CampaignService.updateCustomerConsent o1 db cid rid p1).db
          cid rid p2).db.customer_consent.filter
            (CampaignService.consentKey cid rid)).length = 1
      ∧ (CampaignService.updateCustomerConsent o2
          (CampaignService.updateCustomerConsent o1 db cid rid p1).db
          cid rid p2).res
        = .ok (CampaignService.mergeConsent
            (CampaignService.newConsentRow o1 cid rid p1) cid rid p2)
      ∧ (CampaignService.mergeConsent
            (CampaignService.newConsentRow o1 cid rid p1) cid rid p2).push_notifications
        = p2.push_notifications.getD
            (p1.push_notifications.getD o1.defaultConsent.push_notifications)
      ∧ (CampaignService.mergeConsent
            (CampaignService.newConsentRow o1 cid rid p1) cid rid p2).whatsapp
        = p2.whatsapp.getD (p1.whatsapp.getD o1.defaultConsent.whatsapp)
      ∧ (CampaignService.mergeConsent
            (CampaignService.newConsentRow o1 cid rid p1) cid rid p2).email
        = p2.email.getD (p1.email.getD o1.defaultConsent.email)
      ∧ (CampaignService.mergeConsent
            (CampaignService.newConsentRow o1 cid rid p1) cid rid p2).sms
        = p2.sms.getD (p1.sms.getD o1.defaultConsent.sms)
      ∧ (CampaignService.mergeConsent
            (CampaignService.newConsentRow o1 cid rid p1) cid rid p2).consent_date
        = p2.consent_date.getD (p1.consent_date.getD o1.defaultConsent.consent_date))
    ∧ (∀ r0, db.customer_consent.filter (CampaignService.consentKey cid rid) = [r0] →
      ((CampaignService.updateCustomerConsent o2
          (CampaignService.updateCustomerConsent o1 db cid rid p1).db
          cid rid p2).db.customer_consent.filter
            (CampaignService.consentKey cid rid)).length = 1
      ∧ (CampaignService.updateCustomerConsent o2
          (CampaignService.updateCustomerConsent o1 db cid rid p1).db
          cid rid p2).res
        = .ok (CampaignService.mergeConsent
            (CampaignService.mergeConsent r0 cid rid p1) cid rid p2)) := by
  have hkeymerge1 : ∀ x, CampaignService.consentKey cid rid
      (CampaignService.mergeConsent x cid rid p1) = true := by
    intro x
    simp [CampaignService.consentKey, CampaignService.mergeConsent]
  have hkeymerge2 : ∀ x, CampaignService.consentKey cid rid
      (CampaignService.mergeConsent x cid rid p2) = true := by
    intro x
    simp [CampaignService.consentKey, CampaignService.mergeConsent]
  have hkeynew : CampaignService.consentKey cid rid
      (CampaignService.newConsentRow o1 cid rid p1) = true := by
    simp [CampaignService.consentKey, CampaignService.newConsentRow]
  constructor
  · intro hfil
    have e1 := updateCustomerConsent_empty o1 db cid rid p1 h1 hp1c hp1r hfil
    rw [e1]
    dsimp only
    have hfil1 : (db.customer_consent
        ++ [CampaignService.newConsentRow o1 cid rid p1]).filter
          (CampaignService.consentKey cid rid)
        = [CampaignService.newConsentRow o1 cid rid p1] := by
      simp only [List.filter_append, hfil]
      simp [hkeynew]
    have e2 := updateCustomerConsent_existing o2
      { db with customer_consent := db.customer_consent
          ++ [CampaignService.newConsentRow o1 cid rid p1] }
      cid rid p2 h2 hp2c hp2r (CampaignService.newConsentRow o1 cid rid p1) hfil1
    rw [e2]
    dsimp only
    refine ⟨?_, rfl, rfl, rfl, rfl, rfl, rfl⟩
    rw [filter_map_guard (CampaignService.consentKey cid rid)
      (fun r => CampaignService.mergeConsent r cid rid p2) (fun x _ => hkeymerge2 x)]
    rw [hfil1]
    rfl
  · intro r0 hfil
    have e1 := updateCustomerConsent_existing o1 db cid rid p1 h1 hp1c hp1r r0 hfil
    rw [e1]
    dsimp only
    have hfil1 : (db.customer_consent.map (fun r =>
        if CampaignService.consentKey cid rid r
        then CampaignService.mergeConsent r cid rid p1 else r)).filter
          (CampaignService.consentKey cid rid)
        = [CampaignService.mergeConsent r0 cid rid p1] := by
      rw [filter_map_guard (CampaignService.consentKey cid rid)
        (fun r => CampaignService.mergeConsent r cid rid p1) (fun x _ => hkeymerge1 x)]
      rw [hfil]
      rfl
    have e2 := updateCustomerConsent_existing o2
      { db with customer_consent := db.customer_consent.map (fun r =>
          if CampaignService.consentKey cid rid r
          then CampaignService.mergeConsent r cid rid p1 else r) }
      cid rid p2 h2 hp2c hp2r (CampaignService.mergeConsent r0 cid rid p1) hfil1
    rw [e2]
    dsimp only
    refine ⟨?_, rfl⟩
    rw [filter_map_guard (CampaignService.consentKey cid rid)
      (fun r => CampaignService.mergeConsent r cid rid p2) (fun x _ => hkeymerge2 x)]
    rw [hfil1]
    rfl

/-- C7 witness: starting from an empty store, two sequential consent
upserts for the pair ("u1","r1") leave exactly one row for the pair and
return the second patch merged over the first. -/
theorem c7_witness :
    emptyDB.customer_consent.filter (CampaignService.consentKey "u1" "r1") = []
    ∧ ((CampaignService.updateCustomerConsent baseOracle
          (CampaignService.updateCustomerConsent baseOracle emptyDB "u1" "r1"
            { push_notifications := some true }).db
          "u1" "r1" { sms := some true }).db.customer_consent.filter
            (CampaignService.consentKey "u1" "r1")).length = 1
    ∧ (CampaignService.updateCustomerConsent baseOracle
          (CampaignService.updateCustomerConsent baseOracle emptyDB "u1" "r1"
            { push_notifications := some true }).db
          "u1" "r1" { sms := some true }).res
        = .ok (CampaignService.mergeConsent
            (CampaignService.newConsentRow baseOracle "u1" "r1"
              { push_notifications := some true }) "u1" "r1" { sms := some true }) := by
  obtain ⟨hl, hres, _⟩ := (c7_consent_upsert_merge baseOracle baseOracle emptyDB
    "u1" "r1" { push_notifications := some true } { sms := some true }
    rfl rfl rfl rfl rfl rfl).1 (by decide)
  exact ⟨by decide, hl, hres⟩
